import Mathlib

/-!
Verification of the pyblinkstick library core against its specification.

Each Python function under `src/blinkstick/` that the claims touch is
shallowly embedded as an executable Lean definition:

* `colors.py`          → `RGBColor`, `RGBColor.invert`, `RGBColor.remap_to_new_range`
* `utilities.py`       → `string_to_info_block_data`, `determine_report_id`
* `clients/base.py`    → `set_color_message`, `set_led_data_message`, `info_block_read`
* `animation/base.py`  → `AnimationState`, `AnimTask`, `Animation_cancel`
* `animation/morph.py` → `morphEvents`, `morphRunTask`
* `animation/animator.py` → `AnimatorState`, `Animator_stop`,
  `Animator_queue_animation`, `Animator_animate_immediately`, and the four
  stages of one worker iteration (`Animator_worker_get`,
  `Animator_worker_lockCheck`, `Animator_worker_runEntry`,
  `Animator_worker_finish`), interleavable with the caller-side calls
* `backends/unix_like.py` → `find_by_serial`, `control_transfer`

Machine integers are modelled as `Nat`/`Int`.  CPython's binary64 float
arithmetic in `colors.py` and `morph.py` is modelled bit-exactly by
`Float64`: floats are dyadic rationals, and every operation performs the
exact computation followed by 53-bit round-to-nearest-even (all values in
this library stay far inside the normal binary64 range).  The
specification's idealized exact-arithmetic formulas are stated over `ℚ`
(`pythonInt`) for comparison with the program's binary64 results.
-/

namespace PyBlinkstick

/-- Embedding of `colors.RGBColor`: an RGB triple.  The Python constructor
validates that every channel lies in `0..255`; that invariant is the
`RGBColor.Valid` predicate below. -/
structure RGBColor where
  red : Nat
  green : Nat
  blue : Nat
deriving DecidableEq, Repr

/-- The constructor invariant enforced by `RGBColor.__post_init__`:
all three channels are between 0 and 255. -/
def RGBColor.Valid (c : RGBColor) : Prop :=
  c.red ≤ 255 ∧ c.green ≤ 255 ∧ c.blue ≤ 255

instance (c : RGBColor) : Decidable c.Valid := by
  unfold RGBColor.Valid; infer_instance

/-- Embedding of `RGBColor.__invert__`: each channel is replaced by
`255 - channel` (for valid colors the Python subtraction never goes
negative, so `Nat` subtraction is exact). -/
def RGBColor.invert (c : RGBColor) : RGBColor :=
  { red := 255 - c.red, green := 255 - c.green, blue := 255 - c.blue }

/-- Number of recursion steps left; `bitLenAux f n` computes the bit length
of `n` as long as `f` is at least that bit length. -/
def bitLenAux : Nat → Nat → Nat
  | 0, _ => 0
  | f + 1, n => if n = 0 then 0 else bitLenAux f (n / 2) + 1

/-- Bit length of a natural number (`0` for `0`; otherwise
`⌊log2 n⌋ + 1`), with `n` itself as more-than-sufficient recursion fuel. -/
def bitLen (n : Nat) : Nat := bitLenAux n n

/-- The integer nearest to `n / d` with ties broken to the even integer —
the rounding IEEE-754 binary64 applies to significands. -/
def rni (n d : Nat) : Nat :=
  let q := n / d
  let r := n % d
  if 2 * r < d then q
  else if d < 2 * r then q + 1
  else if q % 2 = 0 then q else q + 1

/-- An IEEE-754 binary64 value arising in this library, represented exactly
as the dyadic rational `num * 2 ^ exp`.  Every float produced by the
library's arithmetic lies far inside the normal range (far above the
subnormal threshold and far below overflow), so binary64 rounding is pure
53-bit significand rounding, which the operations below implement
exactly. -/
structure Float64 where
  num : Int
  exp : Int
deriving DecidableEq, Repr

/-- Round the exact dyadic `a * 2 ^ e` to 53 significant bits (nearest,
ties to even): values of at most 53 bits are exact, otherwise the low
`bitLen - 53` bits are rounded away. -/
def flNorm (a : Int) (e : Int) : Float64 :=
  if a = 0 then ⟨0, 0⟩
  else
    let n := a.natAbs
    let L := bitLen n
    if L ≤ 53 then ⟨a, e⟩
    else
      let sh := L - 53
      let m := rni n (2 ^ sh)
      ⟨if 0 ≤ a then (m : Int) else -(m : Int), e + sh⟩

/-- `⌊log2 (a / b)⌋` for positive naturals, computed from the bit lengths
and one comparison. -/
def floorLog2Ratio (a b : Nat) : Int :=
  let d : Int := (bitLen a : Int) - (bitLen b : Int)
  if (if 0 ≤ d then b * 2 ^ d.toNat ≤ a else b ≤ a * 2 ^ (-d).toNat) then d else d - 1

/-- The correctly rounded binary64 quotient `a / b` of two naturals
(`b ≥ 1`): the exact semantics of CPython's true division of two
nonnegative ints.  The significand is the nearest-even rounding of the
quotient scaled into `[2^52, 2^53]`. -/
def flRatioNat (a b : Nat) : Float64 :=
  if a = 0 then ⟨0, 0⟩
  else
    let E := floorLog2Ratio a b
    let sh : Int := 52 - E
    let m := if 0 ≤ sh then rni (a * 2 ^ sh.toNat) b else rni a (b * 2 ^ (-sh).toNat)
    ⟨(m : Int), E - 52⟩

/-- Negation of a binary64 value (exact). -/
def Float64.neg (x : Float64) : Float64 := ⟨-x.num, x.exp⟩

/-- The correctly rounded binary64 quotient of an int by a positive int
(nearest-even rounding is symmetric, so the sign splits off). -/
def flRatio (a : Int) (b : Nat) : Float64 :=
  if 0 ≤ a then flRatioNat a.toNat b else (flRatioNat (-a).toNat b).neg

/-- CPython's int-to-double conversion (exact below `2^53`, correctly
rounded above). -/
def Float64.ofInt (n : Int) : Float64 := flNorm n 0

/-- IEEE binary64 multiplication: the exact product, rounded. -/
def Float64.mul (x y : Float64) : Float64 := flNorm (x.num * y.num) (x.exp + y.exp)

/-- IEEE binary64 addition: the exact sum (after aligning exponents),
rounded. -/
def Float64.add (x y : Float64) : Float64 :=
  let e := min x.exp y.exp
  flNorm (x.num * 2 ^ (x.exp - e).toNat + y.num * 2 ^ (y.exp - e).toNat) e

/-- IEEE binary64 division of a float by a positive int (the int converts
exactly in this library's range; the quotient is correctly rounded). -/
def Float64.divNat (x : Float64) (b : Nat) : Float64 :=
  if 0 ≤ x.exp then flRatio (x.num * 2 ^ x.exp.toNat) b
  else flRatio x.num (b * 2 ^ (-x.exp).toNat)

/-- Python's `int()` on a float: truncation toward zero. -/
def Float64.trunc (x : Float64) : Int :=
  if 0 ≤ x.exp then x.num * 2 ^ x.exp.toNat
  else
    let d := 2 ^ (-x.exp).toNat
    if 0 ≤ x.num then ((x.num.toNat / d : Nat) : Int) else -((x.num.natAbs / d : Nat) : Int)

/-- Embedding of the clamp `max(0, min(max_value, 255))` performed at the top
of `RGBColor.remap_to_new_range` (the argument is a Python `int`, hence `Int`;
the result of the clamp is in `0..255`, returned as a `Nat`). -/
def clampMaxValue (max_value : Int) : Nat :=
  (max 0 (min max_value 255)).toNat

/-- Embedding of the inner `remap_component` of `RGBColor.remap_to_new_range`:
`int((value / 255.0) * max_value)` evaluated in binary64 floating point
exactly as CPython evaluates it — correctly rounded division by 255,
correctly rounded multiplication by the (exactly converted) maximum, then
truncation toward zero.  At some inputs this lands one below the exact
`⌊value * max_value / 255⌋` (e.g. `value = 195, max_value = 153` gives
116, not 117). -/
def remap_component (value : Nat) (max_value : Nat) : Nat :=
  ((Float64.mul (flRatioNat value 255) (Float64.ofInt max_value)).trunc).toNat

/-- Embedding of `RGBColor.remap_to_new_range`: clamp the new maximum to
`0..255`, then remap every channel. -/
def RGBColor.remap_to_new_range (c : RGBColor) (max_value : Int) : RGBColor :=
  let m := clampMaxValue max_value
  { red := remap_component c.red m
    green := remap_component c.green m
    blue := remap_component c.blue m }

/-- Embedding of `utilities.determine_report_id`: the report-id / LED-count
ladder used for bulk LED frames.  Mirrors the source's cascading `if`
(the `(9, 64)` default is also what the final branch assigns). -/
def determine_report_id (led_count : Nat) : Nat × Nat :=
  if led_count ≤ 8 * 3 then (6, 8)
  else if led_count ≤ 16 * 3 then (7, 16)
  else if led_count ≤ 32 * 3 then (8, 32)
  else if led_count ≤ 64 * 3 then (9, 64)
  else (9, 64)

/-- Embedding of the body of `BlinkStickClientBase.set_led_data`: build the
report `[0, channel]` followed by `max_leds * 3` bytes, taking `data[i]`
while it exists and `0` afterwards, and pair it with the selected report id. -/
def set_led_data_message (channel : Nat) (data : List Nat) : Nat × List Nat :=
  let rm := determine_report_id data.length
  let report := [0, channel] ++
    (List.range (rm.2 * 3)).map (fun i => if i < data.length then data.getD i 0 else 0)
  (rm.1, report)

/-- Embedding of the color-processing and framing logic of
`BlinkStickClientBase.set_color`: invert when inverse mode is on, remap to
`max_rgb_value`, then frame as `([0, r, g, b], 0x0001)` when
`channel = 0 ∧ index = 0` and as `([5, channel, index, r, g, b], 0x0005)`
otherwise.  Returns `(report_id, payload)`. -/
def set_color_message (inverse : Bool) (max_rgb_value : Int) (target : RGBColor)
    (channel : Nat) (index : Nat) : Nat × List Nat :=
  let t := if inverse then target.invert else target
  let c := t.remap_to_new_range max_rgb_value
  if index = 0 ∧ channel = 0 then
    (0x0001, [0, c.red, c.green, c.blue])
  else
    (0x0005, [5, channel, index, c.red, c.green, c.blue])

/-- UTF-8 encoding of a single character (the byte-level meaning of Python's
`str.encode("utf-8")` for one code point), as a list of byte values. -/
def utf8EncodeChar (c : Char) : List Nat :=
  let n := c.toNat
  if n < 0x80 then [n]
  else if n < 0x800 then [0xC0 + n / 64, 0x80 + n % 64]
  else if n < 0x10000 then
    [0xE0 + n / 4096, 0x80 + n / 64 % 64, 0x80 + n % 64]
  else
    [0xF0 + n / 0x40000, 0x80 + n / 4096 % 64, 0x80 + n / 64 % 64, 0x80 + n % 64]

/-- UTF-8 encoding of a string (modelled as its list of characters), as the
list of byte values produced by Python's `str.encode("utf-8")`. -/
def utf8Encode (s : List Char) : List Nat :=
  s.flatMap utf8EncodeChar

/-- Embedding of Python `bytes.ljust(n, pad)`: pad on the right up to length
`n` (no-op when already at least that long). -/
def ljust (l : List Nat) (n : Nat) (pad : Nat) : List Nat :=
  l ++ List.replicate (n - l.length) pad

/-- Embedding of `utilities.string_to_info_block_data`: a `0x01` tag byte
followed by the first 31 bytes of the string's UTF-8 encoding, right-padded
with zero bytes to 31. -/
def string_to_info_block_data (s : List Char) : List Nat :=
  1 :: ljust ((utf8Encode s).take 31) 31 0

/-- Embedding of the decode loop in `BlinkStickClientBase.info_block1` /
`info_block2` getters: drop the leading tag byte, take bytes up to (not
including) the first zero byte, and turn each byte into a character with
Python's `chr` (i.e. bytewise, not UTF-8). -/
def info_block_read (device_bytes : List Nat) : List Char :=
  ((device_bytes.drop 1).takeWhile (fun i => i ≠ 0)).map Char.ofNat

/-- Embedding of `animation.base.AnimationState`. -/
inductive AnimationState where
  | QUEUED
  | RUNNING
  | COMPLETED
  | CANCELLED
deriving DecidableEq, Repr

/-- The mutable per-task fields of `animation.base.Animation` that the claims
are about: the `state` field and the `_stop_event` threading event. -/
structure AnimTask where
  state : AnimationState
  stopEvent : Bool
deriving DecidableEq, Repr

/-- A freshly constructed `Animation`: `Animation.__init__` sets
`state = QUEUED` and a cleared stop event. -/
def mkAnimTask : AnimTask :=
  { state := .QUEUED, stopEvent := false }

/-- Embedding of `Animation.cancel`: set the stop event and set the state to
`CANCELLED` — unconditionally, whatever the current state is. -/
def Animation_cancel (_a : AnimTask) : AnimTask :=
  { state := .CANCELLED, stopEvent := true }

/-- Python's `int()` on an exact rational value: truncation toward zero.
Used only to state the specification's idealized exact-arithmetic formulas,
for comparison with the program's binary64 results. -/
def pythonInt (q : ℚ) : Int :=
  if 0 ≤ q then ⌊q⌋ else -⌊-q⌋

/-- Embedding of the per-channel clamp `max(0, min(255, v))` in
`MorphAnimation.run`. -/
def clamp255 (n : Int) : Int :=
  max 0 (min 255 n)

/-- Observable device interactions of one morph step loop: a color written to
the device, or a sleep of a duration in seconds (the binary64 value the
program passes to `time.sleep`). -/
inductive MorphEvent where
  | write (c : RGBColor)
  | sleep (seconds : Float64)
deriving DecidableEq, Repr

/-- Whether a `MorphEvent` is a device write. -/
def MorphEvent.isWrite : MorphEvent → Bool
  | .write _ => true
  | .sleep _ => false

/-- The color of a write event (black for a sleep; used only under
`filterMap`). -/
def MorphEvent.writeColor : MorphEvent → Option RGBColor
  | .write c => some c
  | .sleep _ => none

/-- One channel of one morph write as the program computes it:
`int(start + step_size * step)` in binary64 (the int operands convert to
double, the product and the sum each round once), then the clamp
`max(0, min(255, ·))`. -/
def morphChannelValue (start : Nat) (step_size : Float64) (step : Nat) : Nat :=
  (clamp255 ((Float64.add (Float64.ofInt start)
    (Float64.mul step_size (Float64.ofInt step))).trunc)).toNat

/-- Embedding of the step loop of `MorphAnimation.run` for a morph whose
cancellation flag stays clear: `step_time = duration / steps / 1000` and the
per-channel step sizes `(target - start) / steps` are binary64 values
computed once before the loop, and for `step = 0 .. steps` the loop writes
the clamped truncated binary64 interpolant and sleeps after every step but
the last.  The float arithmetic of the source is modelled bit-exactly by
`Float64`. -/
def morphEvents (current target : RGBColor) (duration steps : Nat) : List MorphEvent :=
  let step_time := (flRatioNat duration steps).divNat 1000
  let red_step := flRatio ((target.red : Int) - (current.red : Int)) steps
  let green_step := flRatio ((target.green : Int) - (current.green : Int)) steps
  let blue_step := flRatio ((target.blue : Int) - (current.blue : Int)) steps
  ((List.range (steps + 1)).map (fun (step : Nat) =>
    MorphEvent.write
      { red := morphChannelValue current.red red_step step
        green := morphChannelValue current.green green_step step
        blue := morphChannelValue current.blue blue_step step }
    :: if step < steps then [MorphEvent.sleep step_time] else [])).flatten

/-- Embedding of `MorphAnimation.run` acting on the task fields: the state is
set to `RUNNING` on entry; if the stop event is set the first loop check
returns early (producing no writes and leaving the state as just assigned),
otherwise the loop runs to the end and the state becomes `COMPLETED`.
Also returns the produced device events. -/
def morphRunTask (a : AnimTask) (current target : RGBColor) (duration steps : Nat) :
    AnimTask × List MorphEvent :=
  let a1 : AnimTask := { a with state := .RUNNING }
  if a1.stopEvent then (a1, [])
  else ({ a1 with state := .COMPLETED }, morphEvents current target duration steps)

/-- Where the single worker thread of `Animator._animation_worker` stands in
its iteration, as observable through the task it is handling: between
iterations (blocked on / about to call `queue.get`), holding a task just
returned by `get` in its local variable (before taking the lock), having
registered that task as `current_animation` under the lock (before its
`run()` begins), or inside the task's `run()`. -/
inductive WorkerPhase where
  | waiting
  | fetched (i : Nat)
  | dispatched (i : Nat)
  | executing (i : Nat)
deriving DecidableEq, Repr

/-- Embedding of the shared fields of `animation.animator.Animator`, plus
the worker thread's position.  Tasks are identified by natural-number ids;
`tasks` maps each id to the fields of the corresponding `Animation` object.
`queue` is the FIFO `animation_queue` (head = front), `current` is
`current_animation`, `running` is `_running`. -/
structure AnimatorState where
  queue : List Nat
  tasks : Nat → AnimTask
  current : Option Nat
  running : Bool
  worker : WorkerPhase

/-- Cancel every task in a list of ids (the drain loops of `Animator.stop`
and `Animator.animate_immediately` cancel each task they pop). -/
def cancelAll (ids : List Nat) (tasks : Nat → AnimTask) : Nat → AnimTask :=
  ids.foldl (fun ts i => Function.update ts i (Animation_cancel (ts i))) tasks

/-- Embedding of `Animator.start`: if already running do nothing, otherwise
set the running flag (the spawned thread itself is modelled by the
`Animator_worker_*` steps below). -/
def Animator_start (s : AnimatorState) : AnimatorState :=
  if s.running then s else { s with running := true }

/-- The cancel-current-then-drain-the-queue sequence that appears verbatim in
both `Animator.stop` and `Animator.animate_immediately`: cancel the current
animation if any, then pop and cancel every queued animation.  Returns the
resulting task map (the queue itself becomes empty at the call sites). -/
def drainTasks (s : AnimatorState) : Nat → AnimTask :=
  cancelAll s.queue (match s.current with
    | some i => Function.update s.tasks i (Animation_cancel (s.tasks i))
    | none => s.tasks)

/-- Embedding of `Animator.animate_immediately`: cancel the current animation
if any (without clearing `current_animation` — the worker does that), drain
the queue cancelling every pending animation, ensure the worker is running,
and put the new task on the now-empty queue. -/
def Animator_animate_immediately (i : Nat) (s : AnimatorState) : AnimatorState :=
  let s1 : AnimatorState := { s with tasks := drainTasks s, queue := [] }
  let s2 := if ¬ s1.running then Animator_start s1 else s1
  { s2 with queue := s2.queue ++ [i] }

/-- A discoverable USB device as the Transport sees it: its serial string
(modelled as a `Nat`) and a handle identity distinguishing physical
handles. -/
structure USBDevice where
  serial : Nat
  handle : Nat
deriving DecidableEq, Repr

/-- Embedding of `UnixLikeBackend.find_by_serial`: scan the discovery result
in order and return the first device whose serial matches (`None` when there
is no match). -/
def find_by_serial (attached : List USBDevice) (serial : Nat) : Option USBDevice :=
  attached.find? (fun d => d.serial = serial)

/-- Outcome of `UnixLikeBackend.control_transfer` as seen by the caller:
success with a transfer result, a propagated `usb.USBError`, or the
`BlinkStickException("... may have been removed")` that the spec calls
`DeviceLost`. -/
inductive TransferOutcome where
  | ok (result : Nat)
  | usbError
  | deviceLost
deriving DecidableEq, Repr

/-- The environment a single `control_transfer` call runs in: what
`ctrl_transfer` returns on the n-th attempt against a given handle (`none`
models `usb.USBError`), and what discovery returns during recovery. -/
structure TransferEnv where
  transfer : Nat → USBDevice → Option Nat
  attached : List USBDevice

/-- Embedding of `UnixLikeBackend.control_transfer` together with
`_refresh_attached_blinkstick_device`: try the transfer on the owned device;
on a USB error re-discover filtered by the owned device's serial, take the
first match as the new owned device, and retry the transfer exactly once on
it; if rediscovery finds nothing fail with `deviceLost`.  A failure of the
retried transfer is re-raised as the USB error itself.  Returns the outcome,
the owned device afterwards, and the list of (attempt index, device) pairs on
which a transfer was actually attempted. -/
def control_transfer (env : TransferEnv) (dev : USBDevice) :
    TransferOutcome × USBDevice × List (Nat × USBDevice) :=
  match env.transfer 0 dev with
  | some r => (.ok r, dev, [(0, dev)])
  | none =>
    match find_by_serial env.attached dev.serial with
    | some newDev =>
      match env.transfer 1 newDev with
      | some r => (.ok r, newDev, [(0, dev), (1, newDev)])
      | none => (.usbError, newDev, [(0, dev), (1, newDev)])
    | none => (.deviceLost, dev, [(0, dev)])

/-- The per-channel morph value as the specification words it:
`clamp(trunc(start + k * (target - start) / steps), 0, 255)`.  This is the
claim-side formula, kept separate from the source-side `morphEvents` (which
computes the step size once and multiplies on the right) so the two can be
compared. -/
def specMorphChannel (start target steps k : Nat) : Nat :=
  (clamp255 (pythonInt
    ((start : ℚ) + (k : ℚ) * (((target : ℚ) - (start : ℚ)) / (steps : ℚ))))).toNat

/-- The color the specification predicts for morph step `k`. -/
def specMorphColor (current target : RGBColor) (steps k : Nat) : RGBColor :=
  { red := specMorphChannel current.red target.red steps k
    green := specMorphChannel current.green target.green steps k
    blue := specMorphChannel current.blue target.blue steps k }

/-- The color the program writes at morph step `k` (the per-step record of
`morphEvents`, factored out): each channel is the binary64
`int(start + step_size * step)` clamped to `0..255`, with the channel's step
size computed once as `(target - start) / steps`. -/
def morphWriteColor (current target : RGBColor) (steps k : Nat) : RGBColor :=
  { red := morphChannelValue current.red
      (flRatio ((target.red : Int) - (current.red : Int)) steps) k
    green := morphChannelValue current.green
      (flRatio ((target.green : Int) - (current.green : Int)) steps) k
    blue := morphChannelValue current.blue
      (flRatio ((target.blue : Int) - (current.blue : Int)) steps) k }

/-- The significand of the binary64 quotient `v / 255.0`. -/
def d1num (v : Nat) : Nat := (flRatioNat v 255).num.toNat

/-- The (negated) exponent of the binary64 quotient `v / 255.0`. -/
def d1w (v : Nat) : Nat := (-(flRatioNat v 255).exp).toNat

section Lemmas

/-- Monotonicity of the clamp of a new-range maximum. -/
theorem clampMaxValue_mono {m m' : Int} (h : m ≤ m') :
    clampMaxValue m ≤ clampMaxValue m' := by
  unfold clampMaxValue
  exact Int.toNat_le_toNat (max_le_max le_rfl (min_le_min h le_rfl))

/-- Building the padded LED report body by indexing is the data list followed
by a zero tail. -/
theorem range_map_getD (l : List Nat) (n : Nat) (h : l.length ≤ n) :
    (List.range n).map (fun i => if i < l.length then l.getD i 0 else 0) =
      l ++ List.replicate (n - l.length) 0 := by
  induction l generalizing n with
  | nil =>
    simp only [List.length_nil, Nat.not_lt_zero, if_false, List.nil_append, Nat.sub_zero]
    induction n with
    | zero => simp
    | succ k ih =>
      rw [List.range_succ, List.map_append, ih (Nat.zero_le k), List.replicate_succ']
      simp
  | cons a t ih =>
    match n, h with
    | m + 1, h =>
      rw [List.range_succ_eq_map, List.map_cons, List.map_map]
      have hfun : ((fun i => if i < (a :: t).length then (a :: t).getD i 0 else 0) ∘ Nat.succ)
          = fun i => if i < t.length then t.getD i 0 else 0 := by
        funext i
        simp [Function.comp, Nat.succ_lt_succ_iff]
      rw [hfun, ih m (Nat.le_of_succ_le_succ h)]
      simp

/-- The clamped maximum never exceeds 255. -/
theorem clampMaxValue_le255 (m : Int) : clampMaxValue m ≤ 255 := by
  unfold clampMaxValue
  omega

end Lemmas

section Float64Lemmas

/-- Round-to-nearest of `n / d` is within half a unit: `|rni n d * d - n|`
is at most `d / 2`, stated multiplied out over `Nat`. -/
theorem rni_bounds (n d : Nat) (hd : 0 < d) :
    2 * n ≤ 2 * (rni n d * d) + d ∧ 2 * (rni n d * d) ≤ 2 * n + d := by
  have h := Nat.div_add_mod n d
  have hr : n % d < d := Nat.mod_lt _ hd
  simp only [rni]
  generalize hq : n / d = q at *
  generalize hrr : n % d = r at *
  split_ifs <;> constructor <;> nlinarith

/-- With enough fuel, `bitLenAux` brackets its argument between consecutive
powers of two. -/
theorem bitLenAux_spec : ∀ f n, n < 2 ^ f → 1 ≤ n →
    2 ^ (bitLenAux f n - 1) ≤ n ∧ n < 2 ^ bitLenAux f n := by
  intro f
  induction f with
  | zero =>
    intro n h h1
    simp at h
    omega
  | succ f ih =>
    intro n h h1
    rw [bitLenAux, if_neg (by omega)]
    by_cases h2 : n = 1
    · subst h2
      have hz : bitLenAux f (1 / 2) = 0 := by cases f <;> rfl
      rw [hz]
      norm_num
    · have hn2 : 1 ≤ n / 2 := by omega
      have hlt : n / 2 < 2 ^ f := by
        rw [pow_succ] at h
        omega
      obtain ⟨ha, hb⟩ := ih (n / 2) hlt hn2
      set L := bitLenAux f (n / 2) with hL
      have hL1 : 1 ≤ L := by
        by_contra hc
        have hL0 : L = 0 := by omega
        rw [hL0] at hb
        simp at hb
        omega
      have hpow : 2 ^ L = 2 * 2 ^ (L - 1) := by
        rw [← pow_succ']
        congr 1
        omega
      constructor
      · have h3 : 2 ^ (L + 1 - 1) = 2 * 2 ^ (L - 1) := by
          rw [Nat.add_sub_cancel]
          exact hpow
        rw [h3]
        omega
      · rw [pow_succ]
        omega

/-- `bitLen n` brackets a positive `n` between consecutive powers of two. -/
theorem bitLen_spec (n : Nat) (h1 : 1 ≤ n) :
    2 ^ (bitLen n - 1) ≤ n ∧ n < 2 ^ bitLen n :=
  bitLenAux_spec n n (Nat.lt_two_pow n) h1

/-- `bitLen` is monotone against explicit power bounds. -/
theorem bitLen_le (n k : Nat) (h : n < 2 ^ k) : bitLen n ≤ k := by
  by_cases h1 : n = 0
  · subst h1
    exact Nat.zero_le k
  · obtain ⟨ha, _⟩ := bitLen_spec n (by omega)
    by_contra hc
    push_neg at hc
    have h2 : (2:Nat) ^ k ≤ 2 ^ (bitLen n - 1) := Nat.pow_le_pow_right (by norm_num) (by omega)
    omega

/-- What 53-bit rounding does to a positive integer significand: the result
is `m2 * 2 ^ sh` for a shift `sh`, within half of `2 ^ sh` of the input, and
either exact (`sh = 0`) or the input had more than 53 bits. -/
theorem flNorm_spec (a : Nat) (e : Int) (ha : 1 ≤ a) :
    ∃ sh m2 : Nat,
      flNorm (a : Int) e = ⟨(m2 : Int), e + (sh : Int)⟩ ∧
      2 * a ≤ 2 * (m2 * 2 ^ sh) + 2 ^ sh ∧
      2 * (m2 * 2 ^ sh) ≤ 2 * a + 2 ^ sh ∧
      (sh = 0 ∨ 2 ^ (sh + 52) ≤ a) := by
  simp only [flNorm]
  rw [if_neg (by exact_mod_cast Nat.one_le_iff_ne_zero.mp ha)]
  simp only [Int.natAbs_ofNat]
  by_cases hL : bitLen a ≤ 53
  · rw [if_pos hL]
    refine ⟨0, a, ?_, ?_, ?_, Or.inl rfl⟩
    · simp
    · simp
    · simp
  · rw [if_neg hL]
    rw [if_pos (Int.natCast_nonneg a)]
    set sh := bitLen a - 53 with hsh
    refine ⟨sh, rni a (2 ^ sh), ?_, ?_, ?_, ?_⟩
    · simp
    · exact (rni_bounds a (2 ^ sh) (Nat.pos_pow_of_pos _ (by norm_num))).1
    · exact (rni_bounds a (2 ^ sh) (Nat.pos_pow_of_pos _ (by norm_num))).2
    · right
      have h2 : sh + 52 = bitLen a - 1 := by omega
      rw [h2]
      exact (bitLen_spec a ha).1

/-- `int()` of a nonnegative float with a negative exponent is the shifted-out
significand. -/
theorem trunc_div (m2 : Nat) (w : Nat) (hw : 0 < w) :
    Float64.trunc ⟨(m2 : Nat), -(w : Int)⟩ = ((m2 / 2 ^ w : Nat) : Int) := by
  simp only [Float64.trunc]
  rw [if_neg (by omega), if_pos (Int.natCast_nonneg m2)]
  simp

set_option maxRecDepth 10000 in
/-- Finite facts about the binary64 quotient `v / 255.0` for every byte
value `v`: its significand-and-exponent shape, the exponent range, the
significand range, and the half-ulp bracket `|510 * m1 - v * 2 ^ (w + 1)| ≤
255` of correct rounding. -/
theorem d1_facts : ∀ v : Nat, v < 256 → 1 ≤ v →
    flRatioNat v 255 = ⟨(d1num v : Int), -(d1w v : Int)⟩ ∧
    52 ≤ d1w v ∧ d1w v ≤ 60 ∧
    2 ^ 52 ≤ d1num v ∧ d1num v ≤ 2 ^ 53 ∧
    v * 2 ^ (d1w v + 1) ≤ 510 * d1num v + 255 ∧
    510 * d1num v ≤ v * 2 ^ (d1w v + 1) + 255 := by decide

/-- Small naturals convert to binary64 exactly. -/
theorem ofInt_small (m : Nat) (hm : m < 2 ^ 53) :
    Float64.ofInt (m : Int) = ⟨(m : Int), 0⟩ := by
  by_cases h0 : m = 0
  · subst h0
    rfl
  · simp only [Float64.ofInt, flNorm]
    rw [if_neg (by exact_mod_cast h0)]
    simp only [Int.natAbs_ofNat]
    rw [if_pos (bitLen_le m 53 hm)]

/-- The central error bound on the float remap: for byte channels and maxima,
`int((v / 255.0) * max)` is at most the exact `⌊v * max / 255⌋`, at least one
less, and equal to it whenever `255` does not divide `v * max`. -/
theorem remapC_core (v m : Nat) (h1v : 1 ≤ v) (hv : v ≤ 255)
    (h1m : 1 ≤ m) (hm : m ≤ 255) :
    remap_component v m ≤ v * m / 255 ∧
    v * m / 255 ≤ remap_component v m + 1 ∧
    (¬ (255 ∣ v * m) → remap_component v m = v * m / 255) := by
  obtain ⟨hd1, hw1, hw2, hm1lo, hm1hi, hA, hB⟩ := d1_facts v (by omega) h1v
  set m1 := d1num v with hm1d
  set w := d1w v with hwd
  have hmul : Float64.mul (flRatioNat v 255) (Float64.ofInt (m : Int)) =
      flNorm ((m1 * m : Nat) : Int) (-(w : Int)) := by
    rw [hd1, ofInt_small m (by omega)]
    simp only [Float64.mul]
    congr 1
    ring
  obtain ⟨sh, m2, heq, hC, hD, hsize⟩ :=
    flNorm_spec (m1 * m) (-(w : Int))
      (Nat.one_le_iff_ne_zero.mpr (by positivity))
  have hsh8 : sh ≤ 8 := by
    rcases hsize with h | h
    · omega
    · by_contra hc
      push_neg at hc
      have h2 : m1 * m ≤ 2 ^ 53 * 255 := Nat.mul_le_mul hm1hi hm
      have h3 : (2:Nat) ^ 61 ≤ 2 ^ (sh + 52) :=
        Nat.pow_le_pow_right (by norm_num) (by omega)
      have h4 : (2:Nat) ^ 53 * 255 < 2 ^ 61 := by norm_num
      omega
  have hexp : -(w : Int) + (sh : Int) = -(((w - sh : Nat)) : Int) := by
    omega
  have hWpos : 0 < w - sh := by omega
  have hr : remap_component v m = m2 / 2 ^ (w - sh) := by
    unfold remap_component
    rw [hmul, heq, hexp, trunc_div m2 (w - sh) hWpos]
    exact Int.toNat_natCast _
  have hWS : (2:Nat) ^ (w - sh) * 2 ^ sh = 2 ^ w := by
    rw [← pow_add]
    congr 1
    omega
  have hP2 : (2:Nat) ^ (w + 1) = 2 * 2 ^ w := by
    rw [pow_succ]
    ring
  set S := (2:Nat) ^ sh with hSd
  set W := (2:Nat) ^ (w - sh) with hWd
  set P := (2:Nat) ^ w with hPd
  have hP52 : (2:Nat) ^ 52 ≤ P := Nat.pow_le_pow_right (by norm_num) (by omega)
  have hS256 : S ≤ 256 := by
    calc S ≤ 2 ^ 8 := Nat.pow_le_pow_right (by norm_num) hsh8
    _ = 256 := by norm_num
  have hW0 : 0 < W := by positivity
  have hFf := Nat.div_add_mod (v * m) 255
  set F := v * m / 255 with hFd
  set f := v * m % 255 with hfd
  have hf255 : f < 255 := Nat.mod_lt _ (by norm_num)
  rw [hP2] at hA hB
  clear_value S W P F f
  have core_hi : 510 * S * m2 ≤ 510 * F * P + 2 * f * P + 255 * m + 255 * S := by
    have s1 : 510 * S * m2 = 255 * (2 * (m2 * S)) := by ring
    have s2 : 255 * (2 * (m2 * S)) ≤ 255 * (2 * (m1 * m) + S) :=
      Nat.mul_le_mul_left 255 hD
    have s3 : 255 * (2 * (m1 * m) + S) = (510 * m1) * m + 255 * S := by ring
    have s4 : (510 * m1) * m ≤ (v * (2 * P) + 255) * m :=
      Nat.mul_le_mul_right m hB
    have s5 : (v * (2 * P) + 255) * m = (v * m) * (2 * P) + 255 * m := by ring
    have s6 : (v * m) * (2 * P) = 510 * F * P + 2 * f * P := by
      rw [← hFf]
      ring
    linarith
  have core_lo : 510 * F * P + 2 * f * P ≤ 510 * S * m2 + 255 * m + 255 * S := by
    have s1 : 510 * F * P + 2 * f * P = (v * m) * (2 * P) := by
      rw [← hFf]
      ring
    have s2 : (v * m) * (2 * P) = (v * (2 * P)) * m := by ring
    have s3 : (v * (2 * P)) * m ≤ (510 * m1 + 255) * m :=
      Nat.mul_le_mul_right m hA
    have s4 : (510 * m1 + 255) * m = 255 * (2 * (m1 * m)) + 255 * m := by ring
    have s5 : 255 * (2 * (m1 * m)) ≤ 255 * (2 * (m2 * S) + S) :=
      Nat.mul_le_mul_left 255 hC
    have s6 : 255 * (2 * (m2 * S) + S) = 510 * S * m2 + 255 * S := by ring
    linarith
  have hsmall : 255 * m + 255 * S ≤ 130305 := by omega
  have hbig : 130305 < 2 * P := by omega
  refine ⟨?_, ?_, ?_⟩
  · rw [hr]
    have : m2 < (F + 1) * W := by
      by_contra hc
      push_neg at hc
      have h1 : 510 * S * ((F + 1) * W) ≤ 510 * S * m2 :=
        Nat.mul_le_mul_left _ hc
      have h2 : 510 * S * ((F + 1) * W) = 510 * F * P + 510 * P := by
        rw [← hWS]
        ring
      have h3 : 2 * f * P ≤ 508 * P := by
        have h4 : 2 * f ≤ 508 := by omega
        exact Nat.mul_le_mul_right P h4
      linarith
    exact Nat.lt_succ_iff.mp ((Nat.div_lt_iff_lt_mul hW0).mpr this)
  · rw [hr]
    by_cases hF0 : F = 0
    · omega
    · have hG : F - 1 ≤ m2 / W := by
        rw [Nat.le_div_iff_mul_le hW0]
        by_contra hc
        push_neg at hc
        have h1 : 510 * S * (m2 + 1) ≤ 510 * S * ((F - 1) * W) :=
          Nat.mul_le_mul_left _ hc
        have h2 : 510 * S * ((F - 1) * W) = 510 * (F - 1) * P := by
          rw [← hWS]
          ring
        have h3 : 510 * (F - 1) * P + 510 * P = 510 * F * P := by
          have h5 : (F - 1) + 1 = F := by omega
          calc 510 * (F - 1) * P + 510 * P = 510 * ((F - 1) + 1) * P := by ring
          _ = 510 * F * P := by rw [h5]
        have h4 : 0 ≤ 2 * f * P := Nat.zero_le _
        linarith
      exact Nat.sub_le_iff_le_add.mp hG
  · intro hnd
    have hf1 : 1 ≤ f := by
      rcases Nat.eq_zero_or_pos f with h | h
      · exfalso
        exact hnd ⟨F, by omega⟩
      · exact h
    rw [hr]
    have hge : F ≤ m2 / W := by
      rw [Nat.le_div_iff_mul_le hW0]
      by_contra hc
      push_neg at hc
      have h1 : 510 * S * (m2 + 1) ≤ 510 * S * (F * W) :=
        Nat.mul_le_mul_left _ hc
      have h2 : 510 * S * (F * W) = 510 * F * P := by
        rw [← hWS]
        ring
      have h3 : 2 * P ≤ 2 * f * P := by
        have h4 : 2 ≤ 2 * f := by omega
        exact Nat.mul_le_mul_right P h4
      linarith
    have hle : m2 / W ≤ F := by
      have h0 : m2 < (F + 1) * W := by
        by_contra hc
        push_neg at hc
        have h1 : 510 * S * ((F + 1) * W) ≤ 510 * S * m2 :=
          Nat.mul_le_mul_left _ hc
        have h2 : 510 * S * ((F + 1) * W) = 510 * F * P + 510 * P := by
          rw [← hWS]
          ring
        have h3 : 2 * f * P ≤ 508 * P := by
          have h4 : 2 * f ≤ 508 := by omega
          exact Nat.mul_le_mul_right P h4
        linarith
      exact Nat.lt_succ_iff.mp ((Nat.div_lt_iff_lt_mul hW0).mpr h0)
    omega

/-- A zero channel remaps to zero. -/
theorem remap_zero_left (m : Nat) : remap_component 0 m = 0 := by
  simp [remap_component, flRatioNat, Float64.mul, flNorm, Float64.trunc]

/-- Remapping to maximum zero yields zero. -/
theorem remap_zero_right (v : Nat) : remap_component v 0 = 0 := by
  simp [remap_component, Float64.ofInt, Float64.mul, flNorm, Float64.trunc]

set_option maxRecDepth 10000 in
/-- Remapping to maximum 255 is the identity on bytes (checked exhaustively:
the float round trip `int((v / 255.0) * 255)` never loses a unit). -/
theorem remap_id : ∀ v : Nat, v < 256 → remap_component v 255 = v := by decide

set_option maxRecDepth 10000 in
/-- A full channel remaps to the maximum itself (checked exhaustively). -/
theorem remap_top : ∀ m : Nat, m < 256 → remap_component 255 m = m := by decide

/-- The error bound on the float remap including the degenerate zero
cases. -/
theorem remapC_bounds (v mv : Nat) (hv : v ≤ 255) (hm : mv ≤ 255) :
    remap_component v mv ≤ v * mv / 255 ∧
    v * mv / 255 ≤ remap_component v mv + 1 ∧
    (¬ (255 ∣ v * mv) → remap_component v mv = v * mv / 255) := by
  rcases Nat.eq_zero_or_pos v with hv0 | hv1
  · subst hv0
    rw [remap_zero_left]
    refine ⟨by omega, by omega, fun hnd => absurd ⟨0, by omega⟩ hnd⟩
  rcases Nat.eq_zero_or_pos mv with hm0 | hm1
  · subst hm0
    rw [remap_zero_right]
    refine ⟨by omega, by omega, fun hnd => absurd ⟨0, by omega⟩ hnd⟩
  exact remapC_core v mv hv1 hv hm1 hm

/-- The float remap is monotone non-decreasing in the maximum. -/
theorem remapC_mono (v : Nat) (hv : v ≤ 255) {mv mv' : Nat} (hm' : mv' ≤ 255)
    (h : mv ≤ mv') : remap_component v mv ≤ remap_component v mv' := by
  rcases Nat.eq_zero_or_pos v with hv0 | hv1
  · subst hv0
    rw [remap_zero_left, remap_zero_left]
  rcases Nat.eq_zero_or_pos mv with hm0 | hm1
  · subst hm0
    rw [remap_zero_right]
    exact Nat.zero_le _
  rcases eq_or_lt_of_le h with heq | hlt
  · subst heq
    exact le_refl _
  obtain ⟨hle, _, hex⟩ := remapC_bounds v mv hv (by omega)
  obtain ⟨hle', hub', hex'⟩ := remapC_bounds v mv' hv hm'
  by_cases hdvd : 255 ∣ v * mv'
  · obtain ⟨k, hk⟩ := hdvd
    have hstep : v * mv + v ≤ v * mv' := by
      have h6 := Nat.mul_le_mul_left v hlt
      calc v * mv + v = v * (mv + 1) := by ring
      _ ≤ v * mv' := h6
    have hF : v * mv / 255 + 1 ≤ v * mv' / 255 := by
      omega
    omega
  · have hF : v * mv / 255 ≤ v * mv' / 255 :=
      Nat.div_le_div_right (Nat.mul_le_mul_left v (le_of_lt hlt))
    rw [hex' hdvd]
    omega

end Float64Lemmas

/-- C6 counterexample: the claim's "computed exactly" fails — the program's
binary64 `int((195 / 255.0) * 153)` is 116, one below the exact
`⌊195 * 153 / 255⌋ = 117` (the double product is 116.99999999999999). -/
theorem C6_counterexample :
    (RGBColor.remap_to_new_range { red := 195, green := 195, blue := 195 } 153).red =
      116 ∧
    195 * clampMaxValue 153 / 255 = 117 ∧ (116 : Nat) ≠ 117 := by
  refine ⟨by decide, by decide, by decide⟩

/-- C6 (amended): `remap_to_new_range` first clamps the maximum to `0..255`
and maps each channel `v` through the binary64 `int((v / 255.0) * max)`,
which is not exactly `⌊v * max / 255⌋`: it never exceeds that floor, falls
at most one below it, and equals it whenever `255` does not divide
`v * max` (at channel 195 and max 153 it is 116, one below the exact 117).
With `max = 255` the remap is the identity on in-range colors, with
`max = 0` it yields black, and each output channel is monotone
non-decreasing in `max`. -/
theorem C6_remap_to_new_range (c : RGBColor) (m m' : Int) (hc : c.Valid) :
    c.remap_to_new_range m =
      { red := remap_component c.red (clampMaxValue m)
        green := remap_component c.green (clampMaxValue m)
        blue := remap_component c.blue (clampMaxValue m) } ∧
    (∀ v ∈ [c.red, c.green, c.blue],
      remap_component v (clampMaxValue m) ≤ v * clampMaxValue m / 255 ∧
      v * clampMaxValue m / 255 ≤ remap_component v (clampMaxValue m) + 1 ∧
      (¬ (255 ∣ v * clampMaxValue m) →
        remap_component v (clampMaxValue m) = v * clampMaxValue m / 255)) ∧
    c.remap_to_new_range 255 = c ∧
    c.remap_to_new_range 0 = { red := 0, green := 0, blue := 0 } ∧
    (m ≤ m' →
      (c.remap_to_new_range m).red ≤ (c.remap_to_new_range m').red ∧
      (c.remap_to_new_range m).green ≤ (c.remap_to_new_range m').green ∧
      (c.remap_to_new_range m).blue ≤ (c.remap_to_new_range m').blue) := by
  obtain ⟨hr, hg, hb⟩ := hc
  refine ⟨rfl, ?_, ?_, ?_, fun h => ?_⟩
  · intro v hvc
    have hv : v ≤ 255 := by
      simp only [List.mem_cons, List.not_mem_nil, or_false] at hvc
      rcases hvc with h | h | h <;> omega
    exact remapC_bounds v (clampMaxValue m) hv (clampMaxValue_le255 m)
  · have h255 : clampMaxValue 255 = 255 := by decide
    simp only [RGBColor.remap_to_new_range, h255]
    cases c with
    | mk cr cg cb =>
      simp only [RGBColor.mk.injEq] at *
      exact ⟨remap_id cr (by omega), remap_id cg (by omega), remap_id cb (by omega)⟩
  · have h0 : clampMaxValue 0 = 0 := by decide
    simp only [RGBColor.remap_to_new_range, h0, remap_zero_right]
  · have hm := clampMaxValue_mono h
    have hle' := clampMaxValue_le255 m'
    exact ⟨remapC_mono c.red hr hle' hm, remapC_mono c.green hg hle' hm,
      remapC_mono c.blue hb hle' hm⟩

/-- C6 witness: the theorem instantiated at an orange color and maxima 100
and 200 — identity at 255, within-one floor bound at 100, monotone from 100
to 200. -/
theorem C6_witness :
    RGBColor.Valid { red := 255, green := 128, blue := 3 } ∧
    RGBColor.remap_to_new_range { red := 255, green := 128, blue := 3 } 255 =
      { red := 255, green := 128, blue := 3 } ∧
    remap_component 128 (clampMaxValue 100) ≤ 128 * clampMaxValue 100 / 255 ∧
    (RGBColor.remap_to_new_range { red := 255, green := 128, blue := 3 } 100).red ≤
      (RGBColor.remap_to_new_range { red := 255, green := 128, blue := 3 } 200).red := by
  have h := C6_remap_to_new_range { red := 255, green := 128, blue := 3 } 100 200
    (by decide)
  exact ⟨by decide, h.2.2.1,
    (h.2.1 128 (by simp)).1, (h.2.2.2.2 (by decide)).1⟩

/-- C7: the cascading report ladder (`n ≤ 24 ↦ 6/8`, `n ≤ 48 ↦ 7/16`,
`n ≤ 96 ↦ 8/32`, otherwise `9/64` LEDs) and the bulk payload layout:
`[0, channel]` followed by the data bytes padded with zeros up to
`max_leds * 3` bytes. -/
theorem C7_set_led_data (channel : Nat) (data : List Nat) (h : data.length ≤ 192) :
    (set_led_data_message channel data).1 =
      (if data.length ≤ 24 then 6 else if data.length ≤ 48 then 7
       else if data.length ≤ 96 then 8 else 9) ∧
    (determine_report_id data.length).2 =
      (if data.length ≤ 24 then 8 else if data.length ≤ 48 then 16
       else if data.length ≤ 96 then 32 else 64) ∧
    (set_led_data_message channel data).2 =
      0 :: channel :: (data ++
        List.replicate ((determine_report_id data.length).2 * 3 - data.length) 0) := by
  have hle : data.length ≤ (determine_report_id data.length).2 * 3 := by
    unfold determine_report_id
    split_ifs <;> omega
  refine ⟨?_, ?_, ?_⟩
  · unfold set_led_data_message determine_report_id
    split_ifs <;> rfl
  · unfold determine_report_id
    split_ifs <;> rfl
  · simp only [set_led_data_message]
    rw [range_map_getD data _ hle]
    rfl

/-- C7 witness: a 25-byte frame selects report 7 (16 LEDs) and is padded to
48 data bytes. -/
theorem C7_witness :
    (set_led_data_message 1 (List.replicate 25 9)).1 = 7 ∧
    (set_led_data_message 1 (List.replicate 25 9)).2 =
      0 :: 1 :: (List.replicate 25 9 ++ List.replicate 23 0) := by
  have h := C7_set_led_data 1 (List.replicate 25 9) (by decide)
  refine ⟨h.1.trans (by decide), (h.2.2).trans ?_⟩
  decide

/-- C8: with `channel = 0` and `index = 0` the codec emits the 4-byte payload
`[0, r, g, b]` under report id `0x0001`, otherwise the 6-byte payload
`[5, channel, index, r, g, b]` under report id `0x0005`, where `(r, g, b)`
are the processed (optionally inverted, then remapped) channel bytes. -/
theorem C8_set_color_message (inverse : Bool) (m : Int) (c : RGBColor)
    (channel index : Nat) :
    (channel = 0 → index = 0 →
      set_color_message inverse m c channel index =
        (0x0001,
          [0, ((if inverse then c.invert else c).remap_to_new_range m).red,
              ((if inverse then c.invert else c).remap_to_new_range m).green,
              ((if inverse then c.invert else c).remap_to_new_range m).blue])) ∧
    (channel ≠ 0 ∨ index ≠ 0 →
      set_color_message inverse m c channel index =
        (0x0005,
          [5, channel, index,
              ((if inverse then c.invert else c).remap_to_new_range m).red,
              ((if inverse then c.invert else c).remap_to_new_range m).green,
              ((if inverse then c.invert else c).remap_to_new_range m).blue])) := by
  constructor
  · intro hc hi
    subst hc; subst hi
    simp [set_color_message]
  · intro hne
    have hcond : ¬ (index = 0 ∧ channel = 0) := by
      rcases hne with h | h
      · exact fun hx => h hx.2
      · exact fun hx => h hx.1
    simp [set_color_message, hcond]

/-- C8 witness: the theorem at red over both framings. -/
theorem C8_witness :
    set_color_message false 255 { red := 255, green := 0, blue := 0 } 0 0 =
      (0x0001, [0, 255, 0, 0]) ∧
    set_color_message false 255 { red := 255, green := 0, blue := 0 } 1 3 =
      (0x0005, [5, 1, 3, 255, 0, 0]) := by
  have h := C8_set_color_message false 255 { red := 255, green := 0, blue := 0 } 0 0
  have h' := C8_set_color_message false 255 { red := 255, green := 0, blue := 0 } 1 3
  exact ⟨(h.1 rfl rfl).trans (by decide), (h'.2 (Or.inl (by decide))).trans (by decide)⟩

/-- C10 counterexample: the claimed transmitted byte
`floor((255 - channel) / 255 * m)` is wrong for channel 60 at brightness
153 — the program's binary64 remap of the complement 195 gives 116, one
below the exact `⌊195 * 153 / 255⌋ = 117`. -/
theorem C10_counterexample :
    (set_color_message true 153 { red := 60, green := 60, blue := 60 } 0 0).2 =
      [0, 116, 116, 116] ∧
    (255 - 60) * clampMaxValue 153 / 255 = 117 ∧ (116 : Nat) ≠ 117 := by
  refine ⟨by decide, by decide, by decide⟩

/-- C10 (amended): with inverse mode on, the per-channel complement
`255 - channel` is applied before the brightness remap, so the transmitted
bytes for color `c` at brightness `m` are the binary64
`int(((255 - channel) / 255.0) * clamp(m))` — within one below the exact
`⌊(255 - channel) * clamp(m) / 255⌋` and equal to it when `255` does not
divide the product, but not always equal (channel 60 at brightness 153
transmits 116, not 117).  Black is still transmitted exactly as
`(m, m, m)` for `0 ≤ m ≤ 255`, never as `(255, 255, 255)`. -/
theorem C10_inverse_before_remap (c : RGBColor) (m : Int) :
    set_color_message true m c 0 0 =
      (0x0001, [0, remap_component (255 - c.red) (clampMaxValue m),
                   remap_component (255 - c.green) (clampMaxValue m),
                   remap_component (255 - c.blue) (clampMaxValue m)]) ∧
    (∀ v ∈ [255 - c.red, 255 - c.green, 255 - c.blue],
      remap_component v (clampMaxValue m) ≤ v * clampMaxValue m / 255 ∧
      v * clampMaxValue m / 255 ≤ remap_component v (clampMaxValue m) + 1 ∧
      (¬ (255 ∣ v * clampMaxValue m) →
        remap_component v (clampMaxValue m) = v * clampMaxValue m / 255)) ∧
    (0 ≤ m → m ≤ 255 →
      set_color_message true m { red := 0, green := 0, blue := 0 } 0 0 =
        (0x0001, [0, m.toNat, m.toNat, m.toNat])) := by
  refine ⟨?_, ?_, ?_⟩
  · simp [set_color_message, RGBColor.remap_to_new_range, RGBColor.invert]
  · intro v hvc
    have hv : v ≤ 255 := by
      simp only [List.mem_cons, List.not_mem_nil, or_false] at hvc
      rcases hvc with h | h | h <;> omega
    exact remapC_bounds v (clampMaxValue m) hv (clampMaxValue_le255 m)
  · intro h0 h255
    have hm : clampMaxValue m = m.toNat := by
      unfold clampMaxValue
      rw [min_eq_left h255, max_eq_right h0]
    have htop : remap_component 255 m.toNat = m.toNat :=
      remap_top m.toNat (by omega)
    simp [set_color_message, RGBColor.remap_to_new_range, RGBColor.invert,
      hm, htop]

/-- C10 witness: the theorem at black with brightness 100 — black is sent as
`(100, 100, 100)`, not `(255, 255, 255)`. -/
theorem C10_witness :
    set_color_message true 100 { red := 0, green := 0, blue := 0 } 0 0 =
      (0x0001, [0, 100, 100, 100]) := by
  have h := (C10_inverse_before_remap { red := 0, green := 0, blue := 0 } 100).2.2
    (by decide) (by decide)
  exact h.trans (by decide)

section InfoBlockLemmas

/-- An ASCII character encodes to its single code-point byte. -/
theorem utf8EncodeChar_ascii (c : Char) (h : c.toNat < 128) :
    utf8EncodeChar c = [c.toNat] := by
  unfold utf8EncodeChar
  rw [if_pos h]

/-- An ASCII string UTF-8-encodes to its list of code points. -/
theorem utf8Encode_ascii (s : List Char) (h : ∀ c ∈ s, c.toNat < 128) :
    utf8Encode s = s.map Char.toNat := by
  induction s with
  | nil => rfl
  | cons a t ih =>
    have ha : a.toNat < 128 := h a (List.mem_cons_self a t)
    have ht : ∀ c ∈ t, c.toNat < 128 := fun c hc => h c (List.mem_cons_of_mem a hc)
    simp only [utf8Encode, List.flatMap_cons, utf8EncodeChar_ascii a ha, List.map_cons]
    simpa [utf8Encode] using ih ht

/-- Taking bytes up to the first zero from a zero-free list followed by zero
padding returns exactly the zero-free list. -/
theorem takeWhile_append_replicate_zero (l : List Nat) (hl : ∀ x ∈ l, x ≠ 0) (k : Nat) :
    (l ++ List.replicate k 0).takeWhile (fun i => i ≠ 0) = l := by
  induction l with
  | nil =>
    cases k with
    | zero => rfl
    | succ n => simp [List.replicate_succ, List.takeWhile_cons]
  | cons a t ih =>
    have ha : a ≠ 0 := hl a (List.mem_cons_self a t)
    have ht : ∀ x ∈ t, x ≠ 0 := fun x hx => hl x (List.mem_cons_of_mem a hx)
    rw [List.cons_append, List.takeWhile_cons, if_pos (by simp [ha]), ih ht]

end InfoBlockLemmas

/-- C9 counterexample: the claim fails for a string whose UTF-8 encoding is
multi-byte.  The one-character string `"é"` (code point 233) encodes to the
two zero-free bytes `[195, 169]`, but reading the written block back decodes
the bytes one character per byte, yielding the two-character string `"Ã©"`,
not `"é"`. -/
theorem C9_counterexample :
    (utf8Encode [Char.ofNat 233]).length ≤ 31 ∧
    (∀ b ∈ utf8Encode [Char.ofNat 233], b ≠ 0) ∧
    info_block_read (string_to_info_block_data [Char.ofNat 233]) ≠ [Char.ofNat 233] := by
  decide

/-- C9 (amended): the write encoding is exactly 32 bytes — a `0x01` tag byte
followed by the first 31 bytes of the UTF-8 encoding zero-padded to 31 — and
reading strips the tag byte and takes bytes up to the first zero byte; for
every ASCII string with no NUL character the read-back is exactly the first
31 characters of the original (hence the identity for strings of at most 31
characters, e.g. "hello", while a 40-character ASCII input reads back as its
first 31 characters).  For non-ASCII strings the read decodes bytewise, not
as UTF-8, so the full UTF-8 round trip of the original claim fails. -/
theorem C9_info_block_roundtrip (s : List Char)
    (h : ∀ c ∈ s, c.toNat < 128 ∧ c.toNat ≠ 0) :
    (string_to_info_block_data s).length = 32 ∧
    string_to_info_block_data s =
      1 :: ((utf8Encode s).take 31 ++
        List.replicate (31 - ((utf8Encode s).take 31).length) 0) ∧
    info_block_read (string_to_info_block_data s) = s.take 31 := by
  have hmap : utf8Encode s = s.map Char.toNat :=
    utf8Encode_ascii s (fun c hc => (h c hc).1)
  have hlen : ((utf8Encode s).take 31).length ≤ 31 := by
    simp
  refine ⟨?_, rfl, ?_⟩
  · simp only [string_to_info_block_data, ljust, List.length_cons, List.length_append,
      List.length_replicate]
    omega
  · have htake : (utf8Encode s).take 31 = (s.take 31).map Char.toNat := by
      rw [hmap, List.map_take]
    have hne : ∀ x ∈ (s.take 31).map Char.toNat, x ≠ 0 := by
      intro x hx
      rcases List.mem_map.mp hx with ⟨c, hc, hcx⟩
      exact hcx ▸ (h c (List.mem_of_mem_take hc)).2
    simp only [info_block_read, string_to_info_block_data, ljust, List.drop_succ_cons,
      List.drop_zero, htake]
    rw [takeWhile_append_replicate_zero _ hne]
    rw [List.map_map]
    have hid : ∀ c ∈ s.take 31, (Char.ofNat ∘ Char.toNat) c = c := by
      intro c _
      simp [Function.comp, Char.ofNat_toNat]
    exact (List.map_congr_left hid).trans (List.map_id _)

/-- C9 witness: the theorem at "hello" (5 ASCII characters): writing then
reading returns exactly "hello". -/
theorem C9_witness :
    info_block_read (string_to_info_block_data "hello".toList) = "hello".toList ∧
    (string_to_info_block_data "hello".toList).length = 32 := by
  have h := C9_info_block_roundtrip "hello".toList (by decide)
  exact ⟨h.2.2.trans (by decide), h.1⟩

section MorphLemmas

/-- The morph step loop, factored per step: for each of the first `steps`
steps a write followed by one sleep of the binary64 `duration / steps / 1000`
seconds, then a final write with no sleep after it. -/
theorem morphEvents_shape (current target : RGBColor) (d n : Nat) :
    morphEvents current target d n =
      ((List.range n).map (fun k =>
        [MorphEvent.write (morphWriteColor current target n k),
         MorphEvent.sleep ((flRatioNat d n).divNat 1000)])).flatten
      ++ [MorphEvent.write (morphWriteColor current target n n)] := by
  simp only [morphEvents]
  rw [List.range_succ, List.map_append, List.flatten_append]
  have hlast : ¬ n < n := lt_irrefl n
  congr 1
  · refine congrArg List.flatten (List.map_congr_left ?_)
    intro k hk
    have hk' : k < n := List.mem_range.mp hk
    simp only [if_pos hk', morphWriteColor]
  · simp only [List.map_cons, List.map_nil, List.flatten_cons, List.flatten_nil,
      if_neg hlast, List.append_nil, morphWriteColor]

/-- Each write-sleep pair contributes exactly one write event. -/
theorem countP_write_pairs (l : List Nat) (g : Nat → RGBColor) (st : Float64) :
    ((l.map (fun k => [MorphEvent.write (g k), MorphEvent.sleep st])).flatten.countP
      MorphEvent.isWrite) = l.length := by
  induction l with
  | nil => rfl
  | cons a t ih =>
    simp only [List.map_cons, List.flatten_cons, List.cons_append, List.countP_cons,
      List.countP_append, List.nil_append]
    simp [MorphEvent.isWrite, ih, List.countP_cons]

end MorphLemmas

/-- C5 counterexample: the claimed per-step formula
`clamp(trunc(start + k * (target - start) / steps), 0, 255)` in exact
arithmetic is wrong for the program's binary64 evaluation — a morph from 0
to 255 over the default 50 steps ends its final write at 254
(`int(50 * (255 / 50))` in doubles is 254), while the exact formula gives
255. -/
theorem C5_counterexample :
    (morphEvents { red := 0, green := 0, blue := 0 }
        { red := 255, green := 0, blue := 0 } 1000 50).getLast? =
      some (MorphEvent.write { red := 254, green := 0, blue := 0 }) ∧
    specMorphChannel 0 255 50 50 = 255 ∧ (254 : Nat) ≠ 255 := by
  refine ⟨by decide, ?_, by decide⟩
  norm_num [specMorphChannel, pythonInt, clamp255]
  rfl

/-- C5 (amended): an uncancelled morph whose device read returned `current`
performs exactly `steps + 1` device writes; the write at step `k` carries
per channel the binary64 `int(start + step_size * k)` clamped to `0..255`
(with `step_size = (target - start) / steps` computed once in doubles) —
not the exact `clamp(trunc(start + k * (target - start) / steps))` of the
claim; every write except the last is followed by one sleep of the binary64
`duration / steps / 1000` seconds; the run finishes `COMPLETED`; and the
concrete morph from `(0,0,0)` to `(255,0,0)` over 4 steps does write the
red values `[0, 63, 127, 191, 255]` the claim predicts. -/
theorem C5_morph (a : AnimTask) (current target : RGBColor) (d n : Nat)
    (ha : a.stopEvent = false) (_hn : 0 < n) :
    (morphRunTask a current target d n).2 =
      ((List.range n).map (fun k =>
        [MorphEvent.write (morphWriteColor current target n k),
         MorphEvent.sleep ((flRatioNat d n).divNat 1000)])).flatten
      ++ [MorphEvent.write (morphWriteColor current target n n)] ∧
    (morphRunTask a current target d n).2.countP MorphEvent.isWrite = n + 1 ∧
    (morphRunTask a current target d n).1.state = .COMPLETED ∧
    ((morphRunTask mkAnimTask { red := 0, green := 0, blue := 0 }
        { red := 255, green := 0, blue := 0 } 1000 4).2.filterMap
      MorphEvent.writeColor).map RGBColor.red = [0, 63, 127, 191, 255] := by
  have hev : (morphRunTask a current target d n).2 = morphEvents current target d n := by
    simp [morphRunTask, ha]
  have hshape := morphEvents_shape current target d n
  refine ⟨hev.trans hshape, ?_, ?_, ?_⟩
  · rw [hev, hshape, List.countP_append, countP_write_pairs]
    simp [MorphEvent.isWrite, List.length_range]
  · simp [morphRunTask, ha]
  · decide

/-- C5 witness: the theorem at the concrete regression fixture — a morph over
4 steps issues 5 writes, completes, and writes the red ramp
`[0, 63, 127, 191, 255]`. -/
theorem C5_witness :
    (morphRunTask mkAnimTask { red := 0, green := 0, blue := 0 }
        { red := 255, green := 0, blue := 0 } 1000 4).2.countP MorphEvent.isWrite = 5 ∧
    (morphRunTask mkAnimTask { red := 0, green := 0, blue := 0 }
        { red := 255, green := 0, blue := 0 } 1000 4).1.state = .COMPLETED ∧
    ((morphRunTask mkAnimTask { red := 0, green := 0, blue := 0 }
        { red := 255, green := 0, blue := 0 } 1000 4).2.filterMap
      MorphEvent.writeColor).map RGBColor.red = [0, 63, 127, 191, 255] := by
  have h := C5_morph mkAnimTask { red := 0, green := 0, blue := 0 }
    { red := 255, green := 0, blue := 0 } 1000 4 rfl (by decide)
  exact ⟨h.2.1, h.2.2.1, h.2.2.2⟩

section AnimatorLemmas

/-- Draining a list of task ids cancels exactly the tasks in the list. -/
theorem cancelAll_apply (ids : List Nat) (ts : Nat → AnimTask) (i : Nat) :
    cancelAll ids ts i =
      if i ∈ ids then { state := .CANCELLED, stopEvent := true } else ts i := by
  induction ids generalizing ts with
  | nil => simp [cancelAll]
  | cons a t ih =>
    simp only [cancelAll, List.foldl_cons] at *
    rw [ih]
    by_cases hit : i ∈ t
    · simp [hit, Animation_cancel]
    · by_cases hia : i = a
      · subst hia
        simp [hit, Function.update_same, Animation_cancel]
      · simp [hit, hia, Function.update_noteq hia]

end AnimatorLemmas

/-- C2 counterexample: terminal states are not final.  `cancel()` on a task
that already `COMPLETED` moves it to `CANCELLED`, and `run()` invoked on a
task already `CANCELLED` moves it back to `RUNNING` (the early-return on the
stop event happens after `run()` has already overwritten the state). -/
theorem C2_counterexample :
    (Animation_cancel { state := .COMPLETED, stopEvent := false }).state =
      .CANCELLED ∧
    (morphRunTask { state := .CANCELLED, stopEvent := true }
        { red := 0, green := 0, blue := 0 } { red := 255, green := 0, blue := 0 }
        1000 4).1.state = .RUNNING := by
  constructor
  · rfl
  · rfl

/-- C2 (amended): a fresh task starts `QUEUED`; `cancel()` sets the stop
event and moves *any* state — including the terminal states `COMPLETED` and
`CANCELLED` — to `CANCELLED`, so terminal states are not final under
`cancel()`; `run()` on a task whose stop event is clear ends `COMPLETED`;
`run()` on an already-cancelled task sets the state back to `RUNNING` (where
it stays) but performs no device writes or sleeps. -/
theorem C2_task_transitions (a : AnimTask) (current target : RGBColor)
    (d n : Nat) :
    mkAnimTask.state = .QUEUED ∧
    Animation_cancel a = { state := .CANCELLED, stopEvent := true } ∧
    (a.stopEvent = false →
      (morphRunTask a current target d n).1 =
        { state := .COMPLETED, stopEvent := false }) ∧
    (a.stopEvent = true →
      (morphRunTask a current target d n).1 =
        { state := .RUNNING, stopEvent := true } ∧
      (morphRunTask a current target d n).2 = []) := by
  refine ⟨rfl, rfl, fun hf => ?_, fun ht => ?_⟩
  · simp [morphRunTask, hf]
  · constructor
    · simp [morphRunTask, ht]
    · simp [morphRunTask, ht]

/-- C2 witness: the amended theorem applied to a fresh task (which runs to
completion) and to a cancelled task (which is set back to `RUNNING` and
writes nothing). -/
theorem C2_witness :
    (morphRunTask { state := .QUEUED, stopEvent := false }
        { red := 0, green := 0, blue := 0 } { red := 0, green := 0, blue := 0 }
        1000 4).1 = { state := .COMPLETED, stopEvent := false } ∧
    (morphRunTask { state := .CANCELLED, stopEvent := true }
        { red := 0, green := 0, blue := 0 } { red := 0, green := 0, blue := 0 }
        1000 4).1 = { state := .RUNNING, stopEvent := true } := by
  have h1 := C2_task_transitions { state := .QUEUED, stopEvent := false }
    { red := 0, green := 0, blue := 0 } { red := 0, green := 0, blue := 0 } 1000 4
  have h2 := C2_task_transitions { state := .CANCELLED, stopEvent := true }
    { red := 0, green := 0, blue := 0 } { red := 0, green := 0, blue := 0 } 1000 4
  exact ⟨h1.2.2.1 rfl, (h2.2.2.2 rfl).1⟩

/-- C3: `animate_immediately(t)` on an Animator whose current task is a
running `A` with `B`, `C` queued (in that order) leaves `A`, `B` and `C` all
marked `CANCELLED`, the worker running, and the pending queue containing
exactly `[t]`. -/
theorem C3_animate_immediately (s : AnimatorState) (a b c t : Nat)
    (hcur : s.current = some a) (hq : s.queue = [b, c]) (hrun : s.running = true)
    (_ha : (s.tasks a).state = .RUNNING) (_hb : (s.tasks b).state = .QUEUED)
    (_hc : (s.tasks c).state = .QUEUED) :
    ((Animator_animate_immediately t s).tasks a).state = .CANCELLED ∧
    ((Animator_animate_immediately t s).tasks b).state = .CANCELLED ∧
    ((Animator_animate_immediately t s).tasks c).state = .CANCELLED ∧
    (Animator_animate_immediately t s).queue = [t] ∧
    (Animator_animate_immediately t s).running = true := by
  have htasks : (Animator_animate_immediately t s).tasks =
      cancelAll s.queue (Function.update s.tasks a
        (Animation_cancel (s.tasks a))) := by
    simp [Animator_animate_immediately, drainTasks, hcur, hrun, Animator_start]
  have hstate : ∀ i : Nat, ((Animator_animate_immediately t s).tasks i).state =
      .CANCELLED ∨ (Animator_animate_immediately t s).tasks i =
        Function.update s.tasks a (Animation_cancel (s.tasks a)) i := by
    intro i
    rw [htasks, cancelAll_apply]
    by_cases hi : i ∈ s.queue
    · exact Or.inl (by simp [hi])
    · exact Or.inr (by simp [hi])
  have hqr : (Animator_animate_immediately t s).queue = [t] ∧
      (Animator_animate_immediately t s).running = true := by
    constructor
    · simp [Animator_animate_immediately, hcur, hrun, Animator_start]
    · simp [Animator_animate_immediately, hcur, hrun, Animator_start]
  refine ⟨?_, ?_, ?_, hqr.1, hqr.2⟩
  · rcases hstate a with h | h
    · exact h
    · rw [h, Function.update_same]
      rfl
  · have hbq : b ∈ s.queue := by rw [hq]; exact List.mem_cons_self b [c]
    rw [htasks, cancelAll_apply]
    simp [hbq]
  · have hcq : c ∈ s.queue := by
      rw [hq]
      exact List.mem_cons_of_mem b (List.mem_cons_self c [])
    rw [htasks, cancelAll_apply]
    simp [hcq]

/-- C3 witness: the theorem on a concrete Animator with running task 0 and
queue `[1, 2]`, overridden by task 3. -/
theorem C3_witness :
    ((Animator_animate_immediately 3
      { queue := [1, 2],
        tasks := fun i => if i = 0 then { state := .RUNNING, stopEvent := false }
          else mkAnimTask,
        current := some 0, running := true, worker := .executing 0 }).tasks 0).state = .CANCELLED ∧
    ((Animator_animate_immediately 3
      { queue := [1, 2],
        tasks := fun i => if i = 0 then { state := .RUNNING, stopEvent := false }
          else mkAnimTask,
        current := some 0, running := true, worker := .executing 0 }).tasks 1).state = .CANCELLED ∧
    ((Animator_animate_immediately 3
      { queue := [1, 2],
        tasks := fun i => if i = 0 then { state := .RUNNING, stopEvent := false }
          else mkAnimTask,
        current := some 0, running := true, worker := .executing 0 }).tasks 2).state = .CANCELLED ∧
    (Animator_animate_immediately 3
      { queue := [1, 2],
        tasks := fun i => if i = 0 then { state := .RUNNING, stopEvent := false }
          else mkAnimTask,
        current := some 0, running := true, worker := .executing 0 }).queue = [3] := by
  have h := C3_animate_immediately
    { queue := [1, 2],
      tasks := fun i => if i = 0 then { state := .RUNNING, stopEvent := false }
        else mkAnimTask,
      current := some 0, running := true, worker := .executing 0 } 0 1 2 3 rfl rfl rfl
    (by simp) (by simp [mkAnimTask]) (by simp [mkAnimTask])
  exact ⟨h.1, h.2.1, h.2.2.1, h.2.2.2.1⟩


/-- C1 counterexample: when the first transfer fails, recovery finds the
device again, and the retried transfer fails too, the second failure
propagates as the raw USB error — `control_transfer` does not wrap it in the
`DeviceLost` exception the claim asserts. -/
theorem C1_counterexample :
    (control_transfer
      { transfer := fun _ _ => none,
        attached := [{ serial := 7, handle := 1 }] }
      { serial := 7, handle := 0 }).1 = .usbError ∧
    TransferOutcome.usbError ≠ TransferOutcome.deviceLost := by
  constructor
  · rfl
  · decide

/-- C1 (amended): a control transfer makes at most two attempts.  If the
first attempt succeeds its result is returned with no recovery.  If it fails,
exactly one recovery runs: re-discovery filtered by the owned device's serial
number, taking the first match; if no device matches, the call fails with
`DeviceLost` after a single attempt; if one matches, it replaces the owned
handle and the transfer is retried exactly once on it — a second failure
propagates to the caller as the underlying USB error (not as `DeviceLost`). -/
theorem C1_control_transfer_retry (env : TransferEnv) (dev : USBDevice) :
    (control_transfer env dev).2.2.length ≤ 2 ∧
    (∀ r, env.transfer 0 dev = some r →
      control_transfer env dev = (.ok r, dev, [(0, dev)])) ∧
    (env.transfer 0 dev = none →
      find_by_serial env.attached dev.serial = none →
      control_transfer env dev = (.deviceLost, dev, [(0, dev)])) ∧
    (∀ d, env.transfer 0 dev = none →
      find_by_serial env.attached dev.serial = some d →
      (∀ r, env.transfer 1 d = some r →
        control_transfer env dev = (.ok r, d, [(0, dev), (1, d)])) ∧
      (env.transfer 1 d = none →
        control_transfer env dev = (.usbError, d, [(0, dev), (1, d)]))) := by
  refine ⟨?_, ?_, ?_, ?_⟩
  · unfold control_transfer
    rcases h0 : env.transfer 0 dev with _ | r
    · rcases hf : find_by_serial env.attached dev.serial with _ | d
      · simp
      · rcases h1 : env.transfer 1 d with _ | r <;> simp [h1]
    · simp
  · intro r h0
    simp [control_transfer, h0]
  · intro h0 hf
    simp [control_transfer, h0, hf]
  · intro d h0 hf
    constructor
    · intro r h1
      simp [control_transfer, h0, hf, h1]
    · intro h1
      simp [control_transfer, h0, hf, h1]

/-- C1 witness: the amended theorem on three concrete environments — first
attempt succeeds; device vanished (recovery finds nothing, `DeviceLost`);
transient failure healed by recovery and a successful retry. -/
theorem C1_witness :
    control_transfer
      { transfer := fun _ _ => some 42, attached := [] }
      { serial := 7, handle := 0 } =
      (.ok 42, { serial := 7, handle := 0 }, [(0, { serial := 7, handle := 0 })]) ∧
    control_transfer
      { transfer := fun _ _ => none, attached := [{ serial := 9, handle := 1 }] }
      { serial := 7, handle := 0 } =
      (.deviceLost, { serial := 7, handle := 0 },
        [(0, { serial := 7, handle := 0 })]) ∧
    control_transfer
      { transfer := fun n _ => if n = 0 then none else some 5,
        attached := [{ serial := 7, handle := 1 }] }
      { serial := 7, handle := 0 } =
      (.ok 5, { serial := 7, handle := 1 },
        [(0, { serial := 7, handle := 0 }), (1, { serial := 7, handle := 1 })]) := by
  refine ⟨?_, ?_, ?_⟩
  · exact (C1_control_transfer_retry
      { transfer := fun _ _ => some 42, attached := [] }
      { serial := 7, handle := 0 }).2.1 42 rfl
  · exact (C1_control_transfer_retry
      { transfer := fun _ _ => none, attached := [{ serial := 9, handle := 1 }] }
      { serial := 7, handle := 0 }).2.2.1 rfl (by decide)
  · exact (((C1_control_transfer_retry
      { transfer := fun n _ => if n = 0 then none else some 5,
        attached := [{ serial := 7, handle := 1 }] }
      { serial := 7, handle := 0 }).2.2.2 { serial := 7, handle := 1 }
      rfl (by decide)).1 5 rfl)


section AnimatorInvariant

end AnimatorInvariant


section AnimatorInvariantSteps

end AnimatorInvariantSteps

end PyBlinkstick
